import Mathlib

/-!
Verification of the padea repository: a shallow embedding of the two Python
source files (inflation_dashboard.py and lettre_mission.py) together with
theorems settling the specification claims against the embedded code.

Conventions of the embedding:
  - an annual time series (a pandas Series indexed by yearly Periods) is a
    list of (year, value) pairs with rational values;
  - exceptions become explicit: a fetcher receives the outcome of its HTTP
    request plus response parsing as an Except value, and the surrounding
    try/except of the Python code becomes a match on that outcome, so the
    fetchers are total functions (they cannot raise);
  - Python strings handled character-wise are lists of characters.
-/

namespace Padea

/-- An annual numeric time series: (year, value) pairs.  This embeds a pandas
Series with a yearly PeriodIndex; the value type is the rationals. -/
abbrev Series := List (Int × ℚ)

/-- Association-list lookup by year, embedding indexing a pandas Series or a
Python dict by a key. -/
def assocLookup {α : Type} (y : Int) : List (Int × α) → Option α
  | [] => none
  | p :: l => if p.1 = y then some p.2 else assocLookup y l

/-- First-seen-order deduplication helper: keeps each element of the list the
first time it occurs, skipping elements already seen. -/
def firstSeenAux {α : Type} [DecidableEq α] (seen : List α) :
    List α → List α
  | [] => []
  | x :: xs =>
      if x ∈ seen then firstSeenAux seen xs
      else x :: firstSeenAux (x :: seen) xs

/-- The distinct elements of a list in first-seen order, embedding both
list(dict.fromkeys(...)) of build_line_chart and the distinct group keys of
a resample. -/
def firstSeen {α : Type} [DecidableEq α] (l : List α) : List α :=
  firstSeenAux [] l

/-- Embeds clip_years of inflation_dashboard.py: restrict a series to the
closed year range [startYr, endYr].  The Python code returns s unchanged when
s is empty; the Period construction cannot fail on integer years, so the
except branch is unreachable. -/
def clip_years (s : Series) (startYr endYr : Int) : Series :=
  if s.isEmpty then s
  else s.filter (fun p => decide (startYr ≤ p.1) && decide (p.1 ≤ endYr))

/-- The parsed body of an IMF WEO response as consumed by fetch_weo_series.
Each raw (year string, value) entry either parses to a (year, value) pair or
fails (value falsy, the literal no-data marker, or a float/Period conversion
error); a failed entry is modelled as none, because the inner try/except of
the Python code silently skips it.  lastActual is the parsed info lastActual
field, none when the key is absent (the Python code then falls back to the
default).  A malformed lastActual string makes the int() call raise, which
lands in the outer except branch; that case is covered by the Except.error
constructor of the fetcher input. -/
structure WeoPayload where
  entries : List (Option (Int × ℚ))
  lastActual : Option Int
deriving DecidableEq

/-- Insert into a year-keyed dict: overwriting semantics of the records dict
in fetch_weo_series (a later entry for the same year replaces the earlier). -/
def dictInsert (m : Series) (k : Int) (v : ℚ) : Series :=
  m.filter (fun q => decide (q.1 ≠ k)) ++ [(k, v)]

/-- Sorted insertion by year, used to embed sort_index. -/
def insertByYear (p : Int × ℚ) : Series → Series
  | [] => [p]
  | q :: l => if p.1 ≤ q.1 then p :: q :: l else q :: insertByYear p l

/-- Embeds Series.sort_index: sort the (year, value) pairs by year. -/
def sortSeries (l : Series) : Series := l.foldr insertByYear []

/-- Embeds fetch_weo_series of inflation_dashboard.py.  The first argument is
the outcome of the HTTP request, raise_for_status and response parsing: any
network, HTTP-status or document-level parse failure is the error case, and
the function then returns an empty series and the default last-actual year
thisYear - 1 (the except branch of the Python code).  On success the valid
entries are collected into a dict and sorted by year. -/
def fetch_weo_series (resp : Except Unit WeoPayload) (thisYear : Int) :
    Series × Int :=
  match resp with
  | .error _ => ([], thisYear - 1)
  | .ok p =>
      let records := (p.entries.filterMap id).foldl
        (fun m e => dictInsert m e.1 e.2) []
      (sortSeries records, p.lastActual.getD (thisYear - 1))

/-- Mean of the values recorded for each distinct year, embedding the
resample to year-start followed by mean in fetch_fred_annual, with the
result sorted by year. -/
def annualMean (clean : Series) : Series :=
  sortSeries ((firstSeen (clean.map Prod.fst)).map (fun y =>
    let vs := (clean.filter (fun p => decide (p.1 = y))).map Prod.snd
    (y, vs.sum / (vs.length : ℚ))))

/-- Embeds fetch_fred_annual of inflation_dashboard.py.  The argument is the
outcome of the HTTP request plus CSV parse; each row either yields a
(year, value) pair or is dropped (the errors=coerce conversions followed by
dropna), modelled as an Option entry.  Any transport or document-level parse
failure is the error case and returns an empty series. -/
def fetch_fred_annual (resp : Except Unit (List (Option (Int × ℚ)))) :
    Series :=
  match resp with
  | .error _ => []
  | .ok rows => annualMean (rows.filterMap id)

/-- The per-(country, indicator) cache entry built by the macro fetch loop of
main in inflation_dashboard.py: a historical series, a forecast series and
the last-actual year.  This is the complete shape of the stored tuple; the
loop stores nothing else for the pair. -/
structure AssembledEntry where
  hist : Series
  fcast : Series
  lastActual : Int
deriving DecidableEq

/-- Embeds the body of the macro fetch loop of main (the per-indicator branch
after fetch_weo_series returned (ann, lastAct)): when ann is non-empty the
series is split at the last-actual year into a clipped historical part and,
if forecasts are enabled, a clipped forecast part; when ann is empty the
entry holds two explicitly empty series and the default last-actual year
thisYear - 1. -/
def assembleEntry (ann : Series) (lastAct : Int) (inc : Bool)
    (startYr endYr thisYear : Int) : AssembledEntry :=
  if ann.isEmpty then ⟨[], [], thisYear - 1⟩
  else
    { hist := clip_years (ann.filter (fun p => decide (p.1 ≤ lastAct)))
        startYr endYr
      fcast := if inc then
          clip_years (ann.filter (fun p => decide (lastAct < p.1)))
            startYr endYr
        else []
      lastActual := lastAct }

/-- An input series handed to build_line_chart: the dict with keys label,
hist, fcast (defaulting to an empty series via the .get call), unit and
color. -/
structure TraceIn where
  label : String
  hist : Series
  fcast : Series := []
  unit : String
  color : String := ""
deriving DecidableEq

/-- A plotly Scatter trace as produced by the inner _add helper of
build_line_chart: its name, dash style, axis assignment (secondary true
means the trace was added with secondary_y), legend visibility, unit and
data. -/
structure PlotTrace where
  name : String
  dash : String
  secondary : Bool
  showlegend : Bool
  unit : String
  data : Series
deriving DecidableEq

/-- The figure produced by build_line_chart, reduced to the observable facts
the claims are about: whether a dual-axis subplot grid was created, the
added traces, the y-axis titles, the horizontal reference lines and the
title. -/
structure Figure where
  dual : Bool
  traces : List PlotTrace
  yTitles : List String
  hlines : List ℚ
  title : String
deriving DecidableEq

/-- The units of the traces that have a non-empty historical or forecast
part, in input order (the generator inside the units computation of
build_line_chart before deduplication). -/
def nonEmptyUnits (traces : List TraceIn) : List String :=
  (traces.filter (fun t => !t.hist.isEmpty || !t.fcast.isEmpty)).map
    (fun t => t.unit)

/-- The units list computed at the top of build_line_chart: distinct units of
non-empty series in first-seen order. -/
def chartUnits (traces : List TraceIn) : List String :=
  firstSeen (nonEmptyUnits traces)

/-- Embeds the _add helper of build_line_chart: an empty series adds nothing;
otherwise one trace is added, on the secondary axis exactly when the chart is
dual and the unit differs from the first-seen unit u1. -/
def addTrace (dual : Bool) (u1 : String) (s : Series) (name : String)
    (dash : String) (unit : String) (showlegend : Bool) : List PlotTrace :=
  if s.isEmpty then []
  else [⟨name, dash, dual && decide (unit ≠ u1), showlegend, unit, s⟩]

/-- The traces build_line_chart adds for one input series: the solid
historical trace (legend always requested) and the dotted forecast trace,
whose legend visibility is the Python expression not t.hist.empty. -/
def traceOutputs (dual : Bool) (u1 : String) (t : TraceIn) : List PlotTrace :=
  addTrace dual u1 t.hist t.label "solid" t.unit true ++
  addTrace dual u1 t.fcast (t.label ++ " (forecast)") "dot" t.unit
    (!t.hist.isEmpty)

/-- Embeds build_line_chart of inflation_dashboard.py: collect the distinct
units of non-empty series in first-seen order, create a dual-axis figure
exactly when there are at least two distinct units, add the historical and
forecast traces of every input series, set the y-axis titles, and add the
y = 0 and y = 2 reference lines according to the two flags. -/
def build_line_chart (traces : List TraceIn) (title : String)
    (hline_zero : Bool) (hline_2 : Bool) : Figure :=
  let units := chartUnits traces
  let dual := decide (2 ≤ units.length)
  let u1 := units.headD ""
  { dual := dual
    traces := (traces.map (traceOutputs dual u1)).flatten
    yTitles :=
      if dual then [u1, units.getD 1 u1]
      else if units.isEmpty then [] else [u1]
    hlines := (if hline_zero then [(0 : ℚ)] else []) ++
      (if hline_2 then [(2 : ℚ)] else [])
    title := title }

/-- The per-indicator metadata rows of the macro tab of main (the ind_meta
list): key, chart label, unit, hline_zero flag, hline_2 flag. -/
structure IndMeta where
  key : String
  label : String
  unit : String
  hline0 : Bool
  hline2 : Bool
deriving DecidableEq

/-- The ind_meta table of main in inflation_dashboard.py, verbatim. -/
def ind_meta : List IndMeta :=
  [⟨"cpi", "CPI Inflation (YoY %)", "%", true, true⟩,
   ⟨"gdp", "Real GDP Growth (%)", "%", true, false⟩,
   ⟨"unemp", "Unemployment Rate (%)", "%", false, false⟩]

/-- The figure the single-country macro tab builds for the unemployment
indicator: one trace with unit percent, and the hline flags false/false taken
from the unemployment row of ind_meta. -/
def unempFigure : Figure :=
  build_line_chart
    [{ label := "Unemployment Rate (%) — United States"
       hist := [(2020, 8)]
       fcast := []
       unit := "%"
       color := "#38BDF8" }]
    "Unemployment Rate (%) — United States  ·  IMF WEO" false false

/-- The COUNTRIES catalog of inflation_dashboard.py as (display name, WEO
code) pairs, verbatim and in source order. -/
def COUNTRIES : List (String × String) :=
  [("United States", "USA"), ("Euro Area", "EURO"), ("Germany", "DEU"),
   ("France", "FRA"), ("Italy", "ITA"), ("Spain", "ESP"),
   ("Netherlands", "NLD"), ("Belgium", "BEL"), ("Austria", "AUT"),
   ("Portugal", "PRT"), ("Greece", "GRC"), ("Ireland", "IRL"),
   ("Finland", "FIN"), ("Luxembourg", "LUX"), ("Slovakia", "SVK"),
   ("Slovenia", "SVN"), ("Estonia", "EST"), ("Latvia", "LVA"),
   ("Lithuania", "LTU"), ("Croatia", "HRV"), ("United Kingdom", "GBR"),
   ("Japan", "JPN"), ("Canada", "CAN"), ("Australia", "AUS"),
   ("New Zealand", "NZL"), ("Switzerland", "CHE"), ("Sweden", "SWE"),
   ("Norway", "NOR"), ("Denmark", "DNK"), ("Iceland", "ISL"),
   ("Poland", "POL"), ("Czech Republic", "CZE"), ("Hungary", "HUN"),
   ("Romania", "ROU"), ("Bulgaria", "BGR"), ("China", "CHN"),
   ("India", "IND"), ("South Korea", "KOR"), ("Indonesia", "IDN"),
   ("Malaysia", "MYS"), ("Thailand", "THA"), ("Philippines", "PHL"),
   ("Vietnam", "VNM"), ("Singapore", "SGP"), ("Pakistan", "PAK"),
   ("Bangladesh", "BGD"), ("Brazil", "BRA"), ("Mexico", "MEX"),
   ("Argentina", "ARG"), ("Chile", "CHL"), ("Colombia", "COL"),
   ("Peru", "PER"), ("Bolivia", "BOL"), ("Ecuador", "ECU"),
   ("Uruguay", "URY"), ("Paraguay", "PRY"), ("Venezuela", "VEN"),
   ("Saudi Arabia", "SAU"), ("UAE", "ARE"), ("Turkey", "TUR"),
   ("Israel", "ISR"), ("Egypt", "EGY"), ("Morocco", "MAR"),
   ("Tunisia", "TUN"), ("Algeria", "DZA"), ("Libya", "LBY"),
   ("Iran", "IRN"), ("Iraq", "IRQ"), ("Jordan", "JOR"),
   ("Lebanon", "LBN"), ("South Africa", "ZAF"), ("Nigeria", "NGA"),
   ("Kenya", "KEN"), ("Ethiopia", "ETH"), ("Ghana", "GHA"),
   ("Tanzania", "TZA"), ("Uganda", "UGA"), ("Mozambique", "MOZ"),
   ("Côte d\x27Ivoire", "CIV"), ("Senegal", "SEN"),
   ("Cameroon", "CMR"), ("Angola", "AGO"), ("Zambia", "ZMB"),
   ("Zimbabwe", "ZWE"), ("Russia", "RUS"), ("Ukraine", "UKR"),
   ("Kazakhstan", "KAZ"), ("Uzbekistan", "UZB")]

/-- The iso3_all list computed inside build_oil_world_map: every catalog code
of length 3 (this keeps all real countries and drops the Euro Area
aggregate, whose code EURO has length 4). -/
def iso3All : List String :=
  (COUNTRIES.map Prod.snd).filter (fun c => decide (c.length = 3))

/-- A choropleth figure as produced by build_oil_world_map, reduced to the
observable facts the claims are about: the rendered country codes, the
per-country values, the color-scale bounds and the color-bar visibility. -/
structure Choropleth where
  locations : List String
  z : List ℚ
  zmin : ℚ
  zmax : ℚ
  showscale : Bool
deriving DecidableEq

/-- Embeds build_oil_world_map of inflation_dashboard.py: if the requested
year is not in the Brent index the function returns an empty figure (none
here); otherwise the single price of that year is assigned uniformly to
every three-letter catalog code. -/
def build_oil_world_map (brent : Series) (year : Int) : Option Choropleth :=
  match assocLookup year brent with
  | none => none
  | some price =>
      some { locations := iso3All
             z := List.replicate iso3All.length price
             zmin := price * (9999 / 10000)
             zmax := price * (10001 / 10000)
             showscale := false }

/-- The Brent series as assembled by the oil sub-tab of main: the FRED fetch
for the fixed commodity series id DCOILBRENTEU, clipped to the selected year
range.  The argument is the outcome of that one request; no country code
enters the computation. -/
def oilSeries (resp : Except Unit (List (Option (Int × ℚ))))
    (startYr endYr : Int) : Series :=
  clip_years (fetch_fred_annual resp) startYr endYr

/-- The oil world map rendered by main for the selected year.  The selected
country list of the sidebar is passed in to make the data flow explicit: the
oil sub-tab never reads it, so the parameter is unused, exactly as in the
source. -/
def oilTab (selCountries : List String)
    (resp : Except Unit (List (Option (Int × ℚ))))
    (startYr endYr year : Int) : Option Choropleth :=
  build_oil_world_map (oilSeries resp startYr endYr) year

/-- The character for one decimal digit. -/
def digitChar : Nat → Char
  | 0 => '0'
  | 1 => '1'
  | 2 => '2'
  | 3 => '3'
  | 4 => '4'
  | 5 => '5'
  | 6 => '6'
  | 7 => '7'
  | 8 => '8'
  | _ => '9'

/-- The value of one decimal digit character, none for a non-digit. -/
def digitVal (c : Char) : Option Nat :=
  if c = '0' then some 0
  else if c = '1' then some 1
  else if c = '2' then some 2
  else if c = '3' then some 3
  else if c = '4' then some 4
  else if c = '5' then some 5
  else if c = '6' then some 6
  else if c = '7' then some 7
  else if c = '8' then some 8
  else if c = '9' then some 9
  else none

/-- Left fold of decimal digit characters into a number, failing on the
first non-digit. -/
def parseDigitsAux (acc : Nat) : List Char → Option Nat
  | [] => some acc
  | c :: cs =>
      match digitVal c with
      | some d => parseDigitsAux (acc * 10 + d) cs
      | none => none

/-- Parse a non-empty run of decimal digit characters. -/
def parseNatChars (cs : List Char) : Option Nat :=
  if cs.isEmpty then none else parseDigitsAux 0 cs

/-- The canonical decimal digit characters of a natural number
(most-significant first; the single character 0 for zero). -/
def natChars (n : Nat) : List Char :=
  if n = 0 then ['0'] else (Nat.digits 10 n).reverse.map digitChar

/-- Exactly three decimal digit characters for a remainder below 1000
(the three fractional places of the export precision). -/
def pad3 (r : Nat) : List Char :=
  [digitChar (r / 100), digitChar (r / 10 % 10), digitChar (r % 10)]

/-- Render a value held in thousandths as the decimal text the CSV export
writes for it: optional minus sign, integer part, a dot, three fractional
digits. -/
def printMillis (n : Int) : List Char :=
  (if n < 0 then ['-'] else []) ++
    natChars (n.natAbs / 1000) ++ '.' :: pad3 (n.natAbs % 1000)

/-- Split a character list at the first dot; the dot is dropped.  When no
dot occurs the whole input is the first component. -/
def splitDot : List Char → List Char × List Char
  | [] => ([], [])
  | c :: cs =>
      if c = '.' then ([], cs)
      else
        let p := splitDot cs
        (c :: p.1, p.2)

/-- Parse an unsigned decimal numeral with exactly three fractional digits
into thousandths. -/
def parsePosMillis (cs : List Char) : Option Nat :=
  let p := splitDot cs
  match parseNatChars p.1, parseNatChars p.2 with
  | some a, some b => if p.2.length = 3 then some (a * 1000 + b) else none
  | _, _ => none

/-- Parse a signed decimal numeral with three fractional digits into
thousandths, as re-reading one exported CSV value cell does. -/
def parseMillis (cs : List Char) : Option Int :=
  match cs with
  | [] => none
  | c :: rest =>
      if c = '-' then (parsePosMillis rest).map (fun m : Nat => -(m : Int))
      else (parsePosMillis (c :: rest)).map (fun m : Nat => (m : Int))

/-- Render a year as the text of its row label (str of a yearly Period). -/
def printYearChars (n : Int) : List Char :=
  (if n < 0 then ['-'] else []) ++ natChars n.natAbs

/-- Parse a year cell back to an integer. -/
def parseYearChars (cs : List Char) : Option Int :=
  match cs with
  | [] => none
  | c :: rest =>
      if c = '-' then (parseNatChars rest).map (fun m : Nat => -(m : Int))
      else (parseNatChars (c :: rest)).map (fun m : Nat => (m : Int))

/-- Python round (numpy round): round half to even. -/
def pyRoundHalfEven (q : ℚ) : Int :=
  let f := ⌊q⌋
  if q - f < 1 / 2 then f
  else if 1 / 2 < q - f then f + 1
  else if f % 2 = 0 then f else f + 1

/-- Round a value to the export precision of three decimal places and keep
it in thousandths, embedding the .round(3) applied to the combined frame
before the CSV download. -/
def pyRound3 (q : ℚ) : Int := pyRoundHalfEven (q * 1000)

/-- The assembled dataset behind the Data and Download expander of main: the
year row index (in display order) and the named columns, each an association
list from year to the rounded value in thousandths. -/
structure AssembledTable where
  years : List Int
  cols : List (List Char × List (Int × Int))
deriving DecidableEq

/-- A cell of the CSV text: the empty cell for a missing value (the NaN a
column holds at a year outside its own index), otherwise the printed
number. -/
def exportCell : Option Int → List Char
  | none => []
  | some n => printMillis n

/-- The CSV header row: an empty index-name cell followed by the column
names. -/
def csvHeaderRow (t : AssembledTable) : List (List Char) :=
  [] :: t.cols.map Prod.fst

/-- One CSV body row: the year label followed by one cell per column. -/
def csvBodyRow (t : AssembledTable) (y : Int) : List (List Char) :=
  printYearChars y :: t.cols.map (fun c => exportCell (assocLookup y c.2))

/-- Embeds combined.to_csv: the delimited text as its list of rows of cells
(the delimiter layer itself is injective on these cells, which contain no
separator characters). -/
def toCsv (t : AssembledTable) : List (List (List Char)) :=
  csvHeaderRow t :: t.years.map (csvBodyRow t)

/-- Re-reading one row of the exported text for value column j: parse the
year label and the j-th value cell; an empty cell is a NaN and yields no
pair. -/
def cellValue (j : Nat) (row : List (List Char)) : Option (Int × Int) :=
  match row with
  | [] => none
  | yc :: cells =>
      (parseYearChars yc).bind (fun y =>
        (cells[j]?).bind (fun cell =>
          if cell.isEmpty then none
          else (parseMillis cell).map (fun v => (y, v))))

/-- The (year, value) pairs recovered for value column j by re-parsing the
exported delimited text. -/
def reparsedColumn (csv : List (List (List Char))) (j : Nat) :
    List (Int × Int) :=
  (csv.drop 1).filterMap (cellValue j)

/-- Build the exported table from raw columns by rounding every value to the
export precision, embedding the .round(3) step. -/
def buildAssembledTable (years : List Int)
    (cols : List (List Char × Series)) : AssembledTable :=
  ⟨years, cols.map (fun c => (c.1, c.2.map (fun p => (p.1, pyRound3 p.2))))⟩

/-- Characters of a Python string, the representation used for the
lettre_mission.py embedding. -/
abbrev PyStr := List Char

/-- Python str.lower, characterwise. -/
def pyLowerChars (s : PyStr) : PyStr := s.map Char.toLower

/-- The literal .pdf suffix. -/
def pdfSuffix : PyStr := ['.', 'p', 'd', 'f']

/-- Python output.lower().endswith of the .pdf suffix: the case-insensitive
check of collect_data. -/
def endsWithPdfCI (s : PyStr) : Bool := decide (pdfSuffix <:+ pyLowerChars s)

/-- Embeds ask with a default for a required field: a blank (stripped) reply
returns the default, anything else is returned as typed.  The reply argument
stands for the stripped user input. -/
def askDefault (reply dflt : PyStr) : PyStr :=
  if reply.isEmpty then dflt else reply

/-- Embeds the safe_client computation of collect_data: spaces become
underscores and slashes become dashes (both patterns are single
characters, so str.replace is a character map here). -/
def safeClient (s : PyStr) : PyStr :=
  s.map (fun c => if c = ' ' then '_' else if c = '/' then '-' else c)

/-- The default output file name proposed by collect_data, built from the
client name and the current date stamp. -/
def fileDefault (clientSociete today : PyStr) : PyStr :=
  ("lettre_mission_".data) ++ safeClient clientSociete ++ '_' :: today ++
    pdfSuffix

/-- Embeds the output-file block at the end of collect_data: ask for the name
with the computed default, then append .pdf unless the lowered name already
ends with it. -/
def collectOutput (reply clientSociete today : PyStr) : PyStr :=
  let output := askDefault reply (fileDefault clientSociete today)
  if endsWithPdfCI output then output else output ++ pdfSuffix

/-- The collected form data of lettre_mission.py, restricted to the fields
the claims are about: the stored output path and the two fields that appear
in the document metadata. -/
structure LmData where
  output : PyStr
  missionTitre : PyStr
  prestaNom : PyStr
deriving DecidableEq

/-- The document handed to doc.build by generate_pdf, reduced to the
observable facts the claims are about: the path the SimpleDocTemplate is
created with (the file the build writes), and its title and author
metadata. -/
structure PdfDoc where
  path : PyStr
  title : PyStr
  author : PyStr
deriving DecidableEq

/-- Embeds generate_pdf of lettre_mission.py: the document is written at
exactly output_path = data.output, and that same path is the return
value. -/
def generate_pdf (data : LmData) : PdfDoc × PyStr :=
  (⟨data.output, ("Lettre de mission – ".data) ++ data.missionTitre,
    data.prestaNom⟩,
   data.output)

/-- Outcome of collect_data as observed by main: either the collected data or
a keyboard interrupt. -/
inductive CollectOutcome
  | ok (d : LmData)
  | interrupted
deriving DecidableEq

/-- What main of lettre_mission.py does as observed by the operating system
and the terminal: the process exit code, whether a full stack trace was
printed, and whether the success box was printed. -/
structure MainResult where
  exitCode : Nat
  printedTrace : Bool
  printedSuccess : Bool
deriving DecidableEq

/-- Embeds main of lettre_mission.py.  A keyboard interrupt during collection
exits with code 0.  Otherwise the render outcome (the possibly failing
generate_pdf call, error message or returned path) is inspected: on success
the success box is printed; on failure the error and the full traceback are
printed.  In both branches control falls through to the final input() and
main returns normally, so the interpreter exits with code 0. -/
def lettre_main (c : CollectOutcome) (render : Except PyStr PyStr) :
    MainResult :=
  match c with
  | .interrupted => ⟨0, false, false⟩
  | .ok _ =>
      match render with
      | .ok _ => ⟨0, false, true⟩
      | .error _ => ⟨0, true, false⟩

/-- The two-unit example trace list used in the C2 witness. -/
def twoUnitTraces : List TraceIn :=
  [⟨"A", [(2020, 1)], [], "%", ""⟩, ⟨"B", [(2020, 2)], [], "bps", ""⟩]

/-- The concrete FRED response of the C7 witness. -/
def oilRespEx : Except Unit (List (Option (Int × ℚ))) := .ok [some (2020, 50)]

/-- The Brent series assembled from the witness response. -/
def brentEx : Series := oilSeries oilRespEx 2010 2024

/-- The choropleth the witness response produces for the year 2020. -/
def oilFigEx : Choropleth :=
  ⟨iso3All, List.replicate iso3All.length 50, 50 * (9999 / 10000),
   50 * (10001 / 10000), false⟩

/-- The concrete exported column of the C8 witness: one country-indicator
column with a value for 2020 and one for 2021. -/
def exportColsEx : List (List Char × Series) :=
  [(['U', 'S'], [(2020, 5 / 2), (2021, -(7 / 2))])]

/-! Theorems -/

/-- C1 (counterexample).  The claim states that when every configured
provider returns an empty series, the assembler returns empty historical and
forecast series and provenance "none".  A provenance, per the specification,
is a label identifying which provider populated the assembled result, so it
must at least distinguish the all-providers-empty outcome (label "none")
from an outcome whose data was accepted from a provider (that provider's
label).  The macro fetch loop stores only (hist, fcast, last_actual): the
entry stored when the provider returns an empty series coincides exactly
with the entry stored when the provider succeeded with data lying outside
the selected range, so no function of the stored result is such a label —
the code returns no provenance at all, hence in particular never the
provenance "none". -/
theorem C1_counterexample :
    ¬ ∃ provOf : AssembledEntry → String,
      provOf (assembleEntry [] 2024 true 2010 2020 2025) = "none" ∧
      provOf (assembleEntry [(2024, 5)] 2024 true 2010 2020 2025) ≠
        "none" := by
  rintro ⟨f, h1, h2⟩
  have h : assembleEntry [] 2024 true 2010 2020 2025 =
      assembleEntry [(2024, 5)] 2024 true 2010 2020 2025 := by decide
  exact h2 (h ▸ h1)

/-- C1 (amended).  When the provider returns an empty series, the macro
fetch loop stores explicitly empty historical and forecast series together
with the default last-actual year, current year minus one; no provenance
label is produced. -/
theorem C1_empty_result (lastAct : Int) (inc : Bool) (s e ty : Int) :
    assembleEntry [] lastAct inc s e ty = ⟨[], [], ty - 1⟩ := rfl

/-- C4.  The provider fetchers are total functions in this embedding — every
exception of the Python code has become an explicit Except value — and on
any network, HTTP-status or document-level parse failure fetch_weo_series
returns the empty series with the default last-actual year current year
minus one, and fetch_fred_annual returns the empty series; when the
response parses but carries no lastActual field, fetch_weo_series also
falls back to that default. -/
theorem C4_fetchers_never_raise (err err2 : Unit) (thisYear : Int)
    (entries : List (Option (Int × ℚ))) :
    fetch_weo_series (.error err) thisYear = ([], thisYear - 1) ∧
    fetch_fred_annual (.error err2) = [] ∧
    (fetch_weo_series (.ok ⟨entries, none⟩) thisYear).2 = thisYear - 1 :=
  ⟨rfl, rfl, rfl⟩

/-- C6 (counterexample).  The claim states that any chart containing a
series with a percentage unit includes a zero reference line.  The
unemployment row of ind_meta has unit percent but hline_zero set to false,
and the unemployment chart built with those flags contains a
percentage-unit series yet no zero line. -/
theorem C6_counterexample :
    ind_meta[2]? =
      some ⟨"unemp", "Unemployment Rate (%)", "%", false, false⟩ ∧
    (∃ pt ∈ unempFigure.traces, pt.unit = "%") ∧
    (0 : ℚ) ∉ unempFigure.hlines := by
  refine ⟨rfl, ⟨⟨"Unemployment Rate (%) — United States", "solid", false,
    true, "%", [(2020, 8)]⟩, by decide, rfl⟩, by decide⟩

/-- C6 (amended).  A zero reference line is present in a built chart exactly
when the caller passes the hline_zero flag; in the macro tab that flag is
set for the CPI and GDP charts but not for the unemployment chart, although
all three have the percentage unit. -/
theorem C6_zero_line_iff_flag (traces : List TraceIn) (title : String)
    (h0 h2 : Bool) :
    decide ((0 : ℚ) ∈ (build_line_chart traces title h0 h2).hlines) = h0 ∧
    ind_meta.map (fun m => (m.unit, m.hline0)) =
      [("%", true), ("%", true), ("%", false)] := by
  refine ⟨?_, rfl⟩
  cases h0 <;> cases h2 <;> simp [build_line_chart]

/-- C9 (counterexample).  The claim states that on an internal rendering
failure the script exits with a non-zero exit code.  On a concrete failing
render the embedded main prints the full stack trace but still exits with
code 0, because the exception is caught and control falls through to the
final prompt and a normal return. -/
theorem C9_counterexample :
    (lettre_main (.ok ⟨['a'], ['t'], ['n']⟩) (.error ['b'])).printedTrace =
      true ∧
    (lettre_main (.ok ⟨['a'], ['t'], ['n']⟩) (.error ['b'])).exitCode = 0 :=
  ⟨rfl, rfl⟩

/-- C9 (amended).  The document-generation script exits with code 0 on
success, and on an internal rendering failure it prints a full stack trace
and still exits with code 0 (every path through main, including the
interrupt and failure paths, exits with code 0). -/
theorem C9_exit_behavior (c : CollectOutcome)
    (render : Except PyStr PyStr) :
    (lettre_main c render).exitCode = 0 ∧
    (∀ d msg, c = .ok d → render = .error msg →
      (lettre_main c render).printedTrace = true) := by
  cases c <;> cases render <;> simp [lettre_main]

/-- C9 (witness): the amended theorem applied at a concrete failing
render. -/
theorem C9_witness :
    (lettre_main (.ok ⟨['c'], ['m'], ['p']⟩) (.error ['x'])).exitCode = 0 ∧
    (lettre_main (.ok ⟨['c'], ['m'], ['p']⟩) (.error ['x'])).printedTrace =
      true :=
  ⟨(C9_exit_behavior _ _).1,
   (C9_exit_behavior _ _).2 ⟨['c'], ['m'], ['p']⟩ ['x'] rfl rfl⟩

/-- Appending the .pdf suffix always yields a name that passes the
case-insensitive .pdf check. -/
theorem endsWithPdfCI_append (s : PyStr) :
    endsWithPdfCI (s ++ pdfSuffix) = true := by
  unfold endsWithPdfCI pyLowerChars
  rw [List.map_append]
  have hmap : pdfSuffix.map Char.toLower = pdfSuffix := by decide
  rw [hmap]
  exact decide_eq_true (List.suffix_append _ _)

/-- C10.  The output filename stored by collect_data always ends with .pdf
up to letter case; when the supplied (or defaulted) name does not already
end with .pdf in any case, the suffix is appended; and generate_pdf creates
the document at exactly that stored path and returns the same path. -/
theorem C10_output_path (reply client today titre nom : PyStr) :
    endsWithPdfCI (collectOutput reply client today) = true ∧
    (generate_pdf ⟨collectOutput reply client today, titre, nom⟩).1.path =
      collectOutput reply client today ∧
    (generate_pdf ⟨collectOutput reply client today, titre, nom⟩).2 =
      collectOutput reply client today ∧
    (endsWithPdfCI (askDefault reply (fileDefault client today)) = false →
      collectOutput reply client today =
        askDefault reply (fileDefault client today) ++ pdfSuffix) := by
  refine ⟨?_, rfl, rfl, ?_⟩
  · unfold collectOutput
    by_cases h : endsWithPdfCI (askDefault reply (fileDefault client today))
    · simp [h]
    · simp only [h, if_false, Bool.false_eq_true]
      exact endsWithPdfCI_append _
  · intro h
    simp [collectOutput, h]

/-- C10 (witness): a supplied name with no .pdf suffix gets the suffix
appended. -/
theorem C10_witness : collectOutput ['x'] [] [] = ['x'] ++ pdfSuffix :=
  (C10_output_path ['x'] [] [] [] []).2.2.2 (by decide)

/-- Clipping a series only keeps existing entries. -/
theorem mem_clip_years {p : Int × ℚ} {s : Series} {a b : Int}
    (hp : p ∈ clip_years s a b) : p ∈ s := by
  unfold clip_years at hp
  split at hp
  · exact hp
  · exact (List.mem_filter.mp hp).1

/-- C3.  Every forecast entry assembled by the macro fetch loop has a year
strictly greater than the provider's last-actual year; every historical
entry is at or before it; and when the caller disables forecasts the
forecast part is empty, so the returned data has no entries after the
last-actual year. -/
theorem C3_forecast_bounds (ann : Series) (lastAct : Int) (inc : Bool)
    (s e ty : Int) :
    (∀ p ∈ (assembleEntry ann lastAct inc s e ty).fcast, lastAct < p.1) ∧
    (∀ p ∈ (assembleEntry ann lastAct inc s e ty).hist, p.1 ≤ lastAct) ∧
    (inc = false → (assembleEntry ann lastAct inc s e ty).fcast = []) := by
  refine ⟨?_, ?_, ?_⟩
  · intro p hp
    unfold assembleEntry at hp
    split at hp
    · simp at hp
    · dsimp only at hp
      split at hp
      · have h1 := mem_clip_years hp
        have h2 := (List.mem_filter.mp h1).2
        simpa using h2
      · simp at hp
  · intro p hp
    unfold assembleEntry at hp
    split at hp
    · simp at hp
    · dsimp only at hp
      have h1 := mem_clip_years hp
      have h2 := (List.mem_filter.mp h1).2
      simpa using h2
  · intro hinc
    unfold assembleEntry
    split
    · rfl
    · simp [hinc]

/-- C3 (witness): a forecast year produced from a concrete series lies
strictly beyond the last-actual year 2024. -/
theorem C3_witness : (2024 : Int) < 2026 :=
  (C3_forecast_bounds [(2020, 2), (2026, 3)] 2024 true 2010 2030 2025).1
    (2026, 3) (by decide)

/-- Every trace emitted by the _add helper carries the axis flag computed
from the dual flag and the unit, the unit and data it was called with, and
non-empty data. -/
theorem mem_addTrace {pt : PlotTrace} {dual : Bool} {u1 : String}
    {s : Series} {name dash unit : String} {sl : Bool}
    (h : pt ∈ addTrace dual u1 s name dash unit sl) :
    pt.secondary = (dual && decide (unit ≠ u1)) ∧ pt.unit = unit ∧
      pt.data = s ∧ pt.dash = dash ∧ pt.showlegend = sl ∧
      pt.data.isEmpty = false := by
  unfold addTrace at h
  split at h
  · simp at h
  · next hs =>
      rw [List.mem_singleton] at h
      subst h
      exact ⟨rfl, rfl, rfl, rfl, rfl, by simpa using hs⟩

/-- Axis assignment of every trace produced for one input series. -/
theorem secondary_of_mem_traceOutputs {pt : PlotTrace} {dual : Bool}
    {u1 : String} {t : TraceIn} (h : pt ∈ traceOutputs dual u1 t) :
    pt.secondary = (dual && decide (pt.unit ≠ u1)) := by
  unfold traceOutputs at h
  rcases List.mem_append.mp h with h | h
  · obtain ⟨hs, hu, -, -, -, -⟩ := mem_addTrace h
    rw [hs, hu]
  · obtain ⟨hs, hu, -, -, -, -⟩ := mem_addTrace h
    rw [hs, hu]

/-- C5 (counterexample).  The claim states that an all-forecast series
(empty historical part, non-empty forecast part) still shows its forecast
legend entry.  For a concrete all-forecast series the chart builder
produces exactly one dotted trace and its legend visibility is false — the
legend entry is suppressed, not shown. -/
theorem C5_counterexample :
    (build_line_chart
        [{ label := "Euro HY OAS", hist := [], fcast := [(2026, 3)],
           unit := "%", color := "" }] "t" false false).traces.map
      (fun pt => (pt.dash, pt.showlegend)) = [("dot", false)] := by decide

/-- C5 (amended).  For every series given to the chart builder, the traces
produced for it contain exactly one solid legend entry when the historical
part is non-empty and exactly one dotted legend entry when both parts are
non-empty; when the historical part is empty no legend entry at all is
produced (the forecast legend entry of an all-forecast series is
suppressed); and every produced trace has non-empty data. -/
theorem C5_legend_rules (dual : Bool) (u1 : String) (t : TraceIn) :
    ((traceOutputs dual u1 t).filter
        (fun pt => pt.dash == "solid" && pt.showlegend)).length =
      (if t.hist.isEmpty then 0 else 1) ∧
    ((traceOutputs dual u1 t).filter
        (fun pt => pt.dash == "dot" && pt.showlegend)).length =
      (if t.hist.isEmpty || t.fcast.isEmpty then 0 else 1) ∧
    (∀ pt ∈ traceOutputs dual u1 t, pt.data.isEmpty = false) := by
  refine ⟨?_, ?_, ?_⟩
  · cases hh : t.hist.isEmpty <;> cases hf : t.fcast.isEmpty <;>
      simp [traceOutputs, addTrace, hh, hf]
  · cases hh : t.hist.isEmpty <;> cases hf : t.fcast.isEmpty <;>
      simp [traceOutputs, addTrace, hh, hf]
  · intro pt hpt
    unfold traceOutputs at hpt
    rcases List.mem_append.mp hpt with h | h
    · exact (mem_addTrace h).2.2.2.2.2
    · exact (mem_addTrace h).2.2.2.2.2

/-- C5 (witness): the amended theorem applied to a series with both parts
present; its solid trace has non-empty data. -/
theorem C5_witness :
    ((⟨"A", "solid", false, true, "%", [(2020, 1)]⟩ : PlotTrace)).data.isEmpty
      = false :=
  (C5_legend_rules false "" ⟨"A", [(2020, 1)], [(2026, 2)], "%", ""⟩).2.2
    _ (by decide)

/-- Membership in the first-seen deduplication: an element occurs in the
output exactly when it occurs in the input and was not already seen. -/
theorem mem_firstSeenAux {α : Type} [DecidableEq α] (u : α) (l : List α) :
    ∀ seen, u ∈ firstSeenAux seen l ↔ u ∈ l ∧ u ∉ seen := by
  induction l with
  | nil => intro seen; simp [firstSeenAux]
  | cons x xs ih =>
      intro seen
      unfold firstSeenAux
      by_cases hx : x ∈ seen
      · rw [if_pos hx, ih seen]
        constructor
        · rintro ⟨h1, h2⟩
          exact ⟨List.mem_cons_of_mem _ h1, h2⟩
        · rintro ⟨h1, h2⟩
          rcases List.mem_cons.mp h1 with rfl | h1
          · exact absurd hx h2
          · exact ⟨h1, h2⟩
      · rw [if_neg hx]
        constructor
        · intro hmem
          rcases List.mem_cons.mp hmem with rfl | hmem
          · exact ⟨List.mem_cons_self _ _, hx⟩
          · obtain ⟨h1, h2⟩ := (ih (x :: seen)).mp hmem
            exact ⟨List.mem_cons_of_mem _ h1,
              fun hu => h2 (List.mem_cons_of_mem _ hu)⟩
        · rintro ⟨h1, h2⟩
          by_cases hux : u = x
          · subst hux
            exact List.mem_cons_self _ _
          · rcases List.mem_cons.mp h1 with rfl | h1
            · exact absurd rfl hux
            · refine List.mem_cons_of_mem _ ((ih (x :: seen)).mpr ⟨h1, ?_⟩)
              intro hu
              rcases List.mem_cons.mp hu with h | h
              · exact hux h
              · exact h2 h

/-- The first-seen deduplication never repeats an element. -/
theorem nodup_firstSeenAux {α : Type} [DecidableEq α] (l : List α) :
    ∀ seen, (firstSeenAux seen l).Nodup := by
  induction l with
  | nil => intro seen; simp [firstSeenAux]
  | cons x xs ih =>
      intro seen
      unfold firstSeenAux
      by_cases hx : x ∈ seen
      · rw [if_pos hx]
        exact ih seen
      · rw [if_neg hx]
        refine List.nodup_cons.mpr ⟨?_, ih (x :: seen)⟩
        intro hmem
        exact ((mem_firstSeenAux x xs (x :: seen)).mp hmem).2
          (List.mem_cons_self _ _)

/-- The first-seen deduplication preserves the input order: its output is a
sublist of the input. -/
theorem firstSeenAux_sublist {α : Type} [DecidableEq α] (l : List α) :
    ∀ seen, (firstSeenAux seen l).Sublist l := by
  induction l with
  | nil => intro seen; simp [firstSeenAux]
  | cons x xs ih =>
      intro seen
      unfold firstSeenAux
      by_cases hx : x ∈ seen
      · rw [if_pos hx]
        exact (ih seen).cons _
      · rw [if_neg hx]
        exact (ih (x :: seen)).cons₂ _

/-- C2.  The units list of a built chart holds the distinct units of the
non-empty series — no duplicates, in first-seen input order, covering
exactly the units that occur on a non-empty series; the figure is dual-axis
exactly when at least two distinct units exist (so one distinct unit gives a
single axis and two or more give exactly two); and every added trace sits on
the secondary axis exactly when the figure is dual and its unit differs from
the first-seen unit — so all series of the first-seen unit go to the primary
axis and all others, including any third or later unit, to the secondary
axis. -/
theorem C2_axis_assignment (traces : List TraceIn) (title : String)
    (h0 h2 : Bool) :
    (chartUnits traces).Nodup ∧
    (chartUnits traces).Sublist (nonEmptyUnits traces) ∧
    (∀ u, u ∈ chartUnits traces ↔ u ∈ nonEmptyUnits traces) ∧
    (build_line_chart traces title h0 h2).dual =
      decide (2 ≤ (chartUnits traces).length) ∧
    (∀ pt ∈ (build_line_chart traces title h0 h2).traces,
      pt.secondary = ((build_line_chart traces title h0 h2).dual &&
        decide (pt.unit ≠ (chartUnits traces).headD ""))) := by
  refine ⟨nodup_firstSeenAux _ [], firstSeenAux_sublist _ [], ?_, rfl, ?_⟩
  · intro u
    rw [chartUnits, firstSeen, mem_firstSeenAux]
    simp
  · intro pt hpt
    have hmem : ∃ t ∈ traces,
        pt ∈ traceOutputs (decide (2 ≤ (chartUnits traces).length))
          ((chartUnits traces).headD "") t := by
      simpa [build_line_chart] using hpt
    obtain ⟨t, -, hmem⟩ := hmem
    exact secondary_of_mem_traceOutputs hmem

/-- C2 (witness): with two distinct units, the trace of the second-seen
unit is assigned to the secondary axis exactly as the theorem states. -/
theorem C2_witness :
    (⟨"B", "solid", true, true, "bps", [(2020, 2)]⟩ : PlotTrace).secondary =
      ((build_line_chart twoUnitTraces "t" false false).dual &&
        decide (("bps" : String) ≠ (chartUnits twoUnitTraces).headD "")) :=
  (C2_axis_assignment twoUnitTraces "t" false false).2.2.2.2 _ (by decide)

/-- C7.  The oil sub-tab computes the very same figure whatever country
list is selected (the country argument is never consulted), and the figure
it builds assigns the one global Brent price of the selected year uniformly
to every three-letter country code of the catalog. -/
theorem C7_oil_country_independent (sel1 sel2 : List String)
    (resp : Except Unit (List (Option (Int × ℚ)))) (s e year : Int)
    (brent : Series) (yr : Int) (fig : Choropleth)
    (hfig : build_oil_world_map brent yr = some fig) :
    oilTab sel1 resp s e year = oilTab sel2 resp s e year ∧
    fig.locations = iso3All ∧
    ∃ price, assocLookup yr brent = some price ∧
      fig.z = List.replicate iso3All.length price := by
  refine ⟨rfl, ?_, ?_⟩ <;>
  · unfold build_oil_world_map at hfig
    cases h : assocLookup yr brent with
    | none =>
        rw [h] at hfig
        exact absurd hfig (by simp)
    | some price =>
        rw [h] at hfig
        obtain rfl := Option.some.inj hfig
        first
          | rfl
          | exact ⟨price, rfl, rfl⟩

/-- C7 (witness): the theorem applied to a concrete response holding the
single price 50 for 2020. -/
theorem C7_witness :
    oilTab ["France"] oilRespEx 2010 2024 2020 =
      oilTab ["Japan"] oilRespEx 2010 2024 2020 ∧
    oilFigEx.locations = iso3All ∧
    ∃ price, assocLookup 2020 brentEx = some price ∧
      oilFigEx.z = List.replicate iso3All.length price :=
  C7_oil_country_independent ["France"] ["Japan"] oilRespEx 2010 2024 2020
    brentEx 2020 oilFigEx (by
      simp [brentEx, oilSeries, clip_years, fetch_fred_annual, annualMean,
        firstSeen, firstSeenAux, sortSeries, insertByYear,
        build_oil_world_map, assocLookup, oilRespEx, oilFigEx])

/-- Folding digit characters distributes over append through the running
accumulator. -/
theorem parseDigitsAux_append (acc : Nat) (xs ys : List Char) :
    parseDigitsAux acc (xs ++ ys) =
      (parseDigitsAux acc xs).bind (fun a => parseDigitsAux a ys) := by
  induction xs generalizing acc with
  | nil => simp [parseDigitsAux]
  | cons c cs ih =>
      simp only [List.cons_append, parseDigitsAux]
      cases h : digitVal c with
      | none => simp
      | some d => simp [ih]

/-- Reading back the character of a digit below ten recovers the digit. -/
theorem digitVal_digitChar {d : Nat} (hd : d < 10) :
    digitVal (digitChar d) = some d := by
  interval_cases d <;> rfl

/-- A digit character is never the dot. -/
theorem digitChar_ne_dot (d : Nat) : digitChar d ≠ '.' := by
  unfold digitChar
  split <;> decide

/-- A digit character is never the minus sign. -/
theorem digitChar_ne_dash (d : Nat) : digitChar d ≠ '-' := by
  unfold digitChar
  split <;> decide

/-- Folding the big-endian digit characters of a digit list evaluates to the
accumulated value. -/
theorem parseDigitsAux_digits (L : List Nat) (hL : ∀ d ∈ L, d < 10) :
    ∀ acc, parseDigitsAux acc (L.reverse.map digitChar) =
      some (acc * 10 ^ L.length + Nat.ofDigits 10 L) := by
  induction L with
  | nil => intro acc; simp [parseDigitsAux, Nat.ofDigits_nil]
  | cons d L ih =>
      intro acc
      have hd : d < 10 := hL d (List.mem_cons_self _ _)
      have hL2 : ∀ x ∈ L, x < 10 := fun x hx => hL x (List.mem_cons_of_mem _ hx)
      rw [List.reverse_cons, List.map_append, parseDigitsAux_append, ih hL2 acc]
      simp [parseDigitsAux, digitVal_digitChar hd, Nat.ofDigits_cons]
      ring

/-- Re-parsing the canonical digit characters of a natural number recovers
the number. -/
theorem parseNatChars_natChars (n : Nat) :
    parseNatChars (natChars n) = some n := by
  by_cases h : n = 0
  · subst h; rfl
  · have hdig : Nat.digits 10 n ≠ [] := Nat.digits_ne_nil_iff_ne_zero.mpr h
    unfold natChars parseNatChars
    rw [if_neg h]
    rw [if_neg (by
      simp only [List.isEmpty_eq_true, List.map_eq_nil_iff,
        List.reverse_eq_nil_iff]
      exact hdig)]
    rw [parseDigitsAux_digits (Nat.digits 10 n)
      (fun d hd => Nat.digits_lt_base (by norm_num) hd) 0]
    simp [Nat.ofDigits_digits]

/-- Every character of a printed natural number is a decimal digit
character. -/
theorem natChars_spec (n : Nat) :
    ∀ c ∈ natChars n, ∃ d, d < 10 ∧ c = digitChar d := by
  intro c hc
  unfold natChars at hc
  split at hc
  · simp at hc
    subst hc
    exact ⟨0, by norm_num, rfl⟩
  · rw [List.mem_map] at hc
    obtain ⟨d, hd, rfl⟩ := hc
    exact ⟨d, Nat.digits_lt_base (by norm_num) (List.mem_reverse.mp hd), rfl⟩

/-- No character of a printed natural number is the dot. -/
theorem natChars_ne_dot (n : Nat) : ∀ c ∈ natChars n, c ≠ '.' := by
  intro c hc
  obtain ⟨d, -, rfl⟩ := natChars_spec n c hc
  exact digitChar_ne_dot d

/-- The printed form of a natural number is never empty. -/
theorem natChars_ne_nil (n : Nat) : natChars n ≠ [] := by
  unfold natChars
  split
  · simp
  · simp only [ne_eq, List.map_eq_nil_iff, List.reverse_eq_nil_iff]
    exact Nat.digits_ne_nil_iff_ne_zero.mpr (by assumption)

/-- Splitting at the dot undoes appending a dot-free prefix before a dot. -/
theorem splitDot_append (l r : List Char) (hl : ∀ c ∈ l, c ≠ '.') :
    splitDot (l ++ '.' :: r) = (l, r) := by
  induction l with
  | nil => simp [splitDot]
  | cons c cs ih =>
      have hc : c ≠ '.' := hl c (List.mem_cons_self _ _)
      have hih := ih (fun x hx => hl x (List.mem_cons_of_mem _ hx))
      simp only [List.cons_append, splitDot, if_neg hc, List.append_eq, hih]

/-- Re-parsing the three padded fractional digits recovers the remainder
below 1000. -/
theorem parseNatChars_pad3 {r : Nat} (hr : r < 1000) :
    parseNatChars (pad3 r) = some r := by
  have h1 : r / 100 < 10 := by omega
  have h2 : r / 10 % 10 < 10 := by omega
  have h3 : r % 10 < 10 := by omega
  show parseNatChars [digitChar (r / 100), digitChar (r / 10 % 10),
    digitChar (r % 10)] = some r
  unfold parseNatChars
  rw [if_neg (by simp)]
  simp only [parseDigitsAux, digitVal_digitChar h1, digitVal_digitChar h2,
    digitVal_digitChar h3]
  exact congrArg some (by omega)

/-- Re-parsing the printed unsigned decimal with three fractional places
recovers the value in thousandths. -/
theorem parsePosMillis_print (m : Nat) :
    parsePosMillis (natChars (m / 1000) ++ '.' :: pad3 (m % 1000)) =
      some m := by
  unfold parsePosMillis
  rw [splitDot_append _ _ (natChars_ne_dot _)]
  simp only
  rw [parseNatChars_natChars, parseNatChars_pad3 (by omega)]
  simp only [pad3, List.length_cons, List.length_nil, if_true]
  exact congrArg some (by omega)

/-- Unfolding lemma: parsing a non-empty cell inspects its first character
for the minus sign. -/
theorem parseMillis_cons (c : Char) (rest : List Char) :
    parseMillis (c :: rest) =
      if c = '-' then (parsePosMillis rest).map (fun m : Nat => -(m : Int))
      else (parsePosMillis (c :: rest)).map (fun m : Nat => (m : Int)) := rfl

/-- Unfolding lemma: parsing a non-empty year label inspects its first
character for the minus sign. -/
theorem parseYearChars_cons (c : Char) (rest : List Char) :
    parseYearChars (c :: rest) =
      if c = '-' then (parseNatChars rest).map (fun m : Nat => -(m : Int))
      else (parseNatChars (c :: rest)).map (fun m : Nat => (m : Int)) := rfl

/-- Re-parsing a printed CSV value cell recovers exactly the value in
thousandths that was printed: the cell-level round trip of the export. -/
theorem parseMillis_printMillis (n : Int) :
    parseMillis (printMillis n) = some n := by
  unfold printMillis
  by_cases hn : n < 0
  · rw [if_pos hn]
    show parseMillis ('-' :: (natChars (n.natAbs / 1000) ++
      '.' :: pad3 (n.natAbs % 1000))) = some n
    rw [parseMillis_cons, if_pos rfl, parsePosMillis_print,
      Option.map_some']
    refine congrArg some ?_
    show -(n.natAbs : Int) = n
    omega
  · rw [if_neg hn]
    simp only [List.nil_append]
    obtain ⟨c, cs, hcons⟩ : ∃ c cs,
        natChars (n.natAbs / 1000) = c :: cs := by
      cases h : natChars (n.natAbs / 1000) with
      | nil => exact absurd h (natChars_ne_nil _)
      | cons c cs => exact ⟨c, cs, rfl⟩
    have hcdash : c ≠ '-' := by
      obtain ⟨d, -, rfl⟩ := natChars_spec _ c
        (hcons ▸ List.mem_cons_self c cs)
      exact digitChar_ne_dash d
    rw [hcons, List.cons_append, parseMillis_cons, if_neg hcdash,
      ← List.cons_append, ← hcons, parsePosMillis_print, Option.map_some']
    refine congrArg some ?_
    show ((n.natAbs : Int)) = n
    omega

/-- Re-parsing a printed year label recovers the year. -/
theorem parseYear_printYear (n : Int) :
    parseYearChars (printYearChars n) = some n := by
  unfold printYearChars
  by_cases hn : n < 0
  · rw [if_pos hn]
    show parseYearChars ('-' :: natChars n.natAbs) = some n
    rw [parseYearChars_cons, if_pos rfl, parseNatChars_natChars,
      Option.map_some']
    refine congrArg some ?_
    show -(n.natAbs : Int) = n
    omega
  · rw [if_neg hn]
    simp only [List.nil_append]
    obtain ⟨c, cs, hcons⟩ : ∃ c cs, natChars n.natAbs = c :: cs := by
      cases h : natChars n.natAbs with
      | nil => exact absurd h (natChars_ne_nil _)
      | cons c cs => exact ⟨c, cs, rfl⟩
    have hcdash : c ≠ '-' := by
      obtain ⟨d, -, rfl⟩ := natChars_spec _ c
        (hcons ▸ List.mem_cons_self c cs)
      exact digitChar_ne_dash d
    rw [hcons, parseYearChars_cons, if_neg hcdash, ← hcons,
      parseNatChars_natChars, Option.map_some']
    refine congrArg some ?_
    show ((n.natAbs : Int)) = n
    omega

/-- A printed value cell is never the empty cell. -/
theorem printMillis_ne_nil (n : Int) : (printMillis n).isEmpty = false := by
  unfold printMillis
  obtain ⟨c, cs, hcons⟩ : ∃ c cs,
      natChars (n.natAbs / 1000) = c :: cs := by
    cases h : natChars (n.natAbs / 1000) with
    | nil => exact absurd h (natChars_ne_nil _)
    | cons c cs => exact ⟨c, cs, rfl⟩
  rw [hcons]
  split <;> rfl

/-- A successful association lookup returns a stored pair. -/
theorem mem_of_assocLookup {α : Type} {l : List (Int × α)} {y : Int} {v : α}
    (h : assocLookup y l = some v) : (y, v) ∈ l := by
  induction l with
  | nil => simp [assocLookup] at h
  | cons p l ih =>
      unfold assocLookup at h
      split at h
      · next hp =>
          have hv : v = p.2 := (Option.some.inj h).symm
          subst hv
          subst hp
          exact List.mem_cons_self _ _
      · exact List.mem_cons_of_mem _ (ih h)

/-- With no duplicate keys, every stored pair is found by lookup. -/
theorem assocLookup_of_mem {α : Type} {l : List (Int × α)} {y : Int} {v : α}
    (hnd : (l.map Prod.fst).Nodup) (h : (y, v) ∈ l) :
    assocLookup y l = some v := by
  induction l with
  | nil => simp at h
  | cons p l ih =>
      rw [List.map_cons, List.nodup_cons] at hnd
      rcases List.mem_cons.mp h with heq | h2
      · subst heq
        unfold assocLookup
        rw [if_pos rfl]
      · unfold assocLookup
        by_cases hp : p.1 = y
        · exact absurd (by rw [hp]; exact List.mem_map.mpr ⟨(y, v), h2, rfl⟩)
            hnd.1
        · rw [if_neg hp]
          exact ih hnd.2 h2

/-- Unfolding lemma for reading one non-empty CSV row. -/
theorem cellValue_cons (j : Nat) (yc : List Char)
    (cells : List (List Char)) :
    cellValue j (yc :: cells) =
      (parseYearChars yc).bind (fun y =>
        (cells[j]?).bind (fun cell =>
          if cell.isEmpty then none
          else (parseMillis cell).map (fun v => (y, v)))) := rfl

/-- Reading back one exported body row at value column j recovers exactly
the lookup of that row's year in the column. -/
theorem cellValue_csvBodyRow (t : AssembledTable) (j : Nat)
    (c : List Char × List (Int × Int)) (hj : t.cols[j]? = some c)
    (y0 : Int) :
    cellValue j (csvBodyRow t y0) =
      (assocLookup y0 c.2).map (fun w => (y0, w)) := by
  unfold csvBodyRow
  rw [cellValue_cons, parseYear_printYear, List.getElem?_map, hj]
  cases hl : assocLookup y0 c.2 with
  | none => simp [hl, exportCell]
  | some w =>
      have hne : printMillis w ≠ [] := fun hnil => by
        have h := printMillis_ne_nil w
        rw [hnil] at h
        simp at h
      simp [hl, exportCell, printMillis_ne_nil, parseMillis_printMillis, hne]

/-- Re-parsing the exported delimited text recovers, for each value column,
exactly the (year, value) pairs the column holds, provided the column keys
are distinct and each lies in the exported row index. -/
theorem reparsed_spec (t : AssembledTable) (j : Nat)
    (c : List Char × List (Int × Int)) (hj : t.cols[j]? = some c)
    (hkeys : (c.2.map Prod.fst).Nodup)
    (hsub : ∀ p ∈ c.2, p.1 ∈ t.years) :
    ∀ y v, ((y, v) ∈ reparsedColumn (toCsv t) j ↔ (y, v) ∈ c.2) := by
  intro y v
  have hdrop : (toCsv t).drop 1 = t.years.map (csvBodyRow t) := rfl
  rw [reparsedColumn, hdrop, List.filterMap_map]
  constructor
  · intro hmem
    rw [List.mem_filterMap] at hmem
    obtain ⟨y0, hy0, hcell⟩ := hmem
    rw [Function.comp_apply, cellValue_csvBodyRow t j c hj y0] at hcell
    cases hl : assocLookup y0 c.2 with
    | none => rw [hl] at hcell; simp at hcell
    | some w =>
        rw [hl] at hcell
        simp only [Option.map_some', Option.some.injEq, Prod.mk.injEq]
          at hcell
        obtain ⟨rfl, rfl⟩ := hcell
        exact mem_of_assocLookup hl
  · intro hmem
    rw [List.mem_filterMap]
    refine ⟨y, hsub (y, v) hmem, ?_⟩
    rw [Function.comp_apply, cellValue_csvBodyRow t j c hj y,
      assocLookup_of_mem hkeys hmem]
    rfl

/-- C8.  Exporting the assembled dataset to the delimited-text format —
values rounded to three decimal places, rows indexed by year — and
re-parsing the exported text reproduces exactly the (year, value) pairs of
every exported column: a recovered pair is exactly a stored pair at the
export precision.  The hypotheses state what pandas guarantees for the
combined frame: each column has one value per year, and its years are part
of the frame's row index. -/
theorem C8_csv_roundtrip (years : List Int)
    (cols : List (List Char × Series)) (j : Nat)
    (c : List Char × Series) (hj : cols[j]? = some c)
    (hkeys : (c.2.map Prod.fst).Nodup)
    (hsub : ∀ p ∈ c.2, p.1 ∈ years) :
    ∀ y v,
      ((y, v) ∈ reparsedColumn (toCsv (buildAssembledTable years cols)) j ↔
        ∃ q, (y, q) ∈ c.2 ∧ v = pyRound3 q) := by
  intro y v
  have hj2 : (buildAssembledTable years cols).cols[j]? =
      some (c.1, c.2.map (fun p => (p.1, pyRound3 p.2))) := by
    show (cols.map _)[j]? = _
    rw [List.getElem?_map, hj]
    rfl
  have hkeys2 :
      (((c.2.map (fun p => (p.1, pyRound3 p.2))).map Prod.fst)).Nodup := by
    rw [List.map_map]
    exact hkeys
  have hsub2 : ∀ p ∈ c.2.map (fun p => (p.1, pyRound3 p.2)),
      p.1 ∈ (buildAssembledTable years cols).years := by
    intro p hp
    rw [List.mem_map] at hp
    obtain ⟨q, hq, rfl⟩ := hp
    exact hsub q hq
  rw [reparsed_spec (buildAssembledTable years cols) j _ hj2 hkeys2 hsub2
    y v]
  constructor
  · intro hmem
    obtain ⟨⟨a1, a2⟩, ha, heq⟩ := List.mem_map.mp hmem
    simp only [Prod.mk.injEq] at heq
    obtain ⟨rfl, rfl⟩ := heq
    exact ⟨a2, ha, rfl⟩
  · rintro ⟨q, hq, rfl⟩
    exact List.mem_map.mpr ⟨(y, q), hq, rfl⟩

/-- C8 (witness): the round trip applied to a concrete table; the 2020
value 2.5 is recovered from the exported text as 2500 thousandths. -/
theorem C8_witness :
    (2020, 2500) ∈
      reparsedColumn (toCsv (buildAssembledTable [2021, 2020] exportColsEx))
        0 :=
  (C8_csv_roundtrip [2021, 2020] exportColsEx 0
    (['U', 'S'], [(2020, 5 / 2), (2021, -(7 / 2))]) rfl (by decide)
    (by decide) 2020 2500).mpr
    ⟨5 / 2, List.mem_cons_self _ _, by norm_num [pyRound3, pyRoundHalfEven]⟩

end Padea
